import Mathlib

/-!
Verification of the economy core of a chat-platform economy bot
(balance engine, claim scheduler, wagering engine, drawing lifecycle),
shallowly embedded from `src/main.py`.

Currency amounts are Python ints, embedded as `Int`.  Timestamps are
seconds since the Unix epoch, embedded as `Nat`; elapsed-time
subtractions are performed in `Int` to mirror Python's signed
`timedelta.total_seconds()`.  Randomness (die rolls, random stipend
amounts, `random.sample` draws) is passed in as an explicit argument.
-/

namespace Econ

/-- Source constant `MAX_GOLD_NORMAL` (main.py line 32): 50 billion gold
cap for normal users. -/
def MAX_GOLD_NORMAL : Int := 50000000000

/-- Source constant `MAX_GOLD_ADMIN` (main.py line 33): 100 billion gold
cap for admins. -/
def MAX_GOLD_ADMIN : Int := 100000000000

/-- Source constant `ADMIN_MONTHLY_BONUS` (main.py line 34): 30 billion
gold monthly bonus for admins. -/
def ADMIN_MONTHLY_BONUS : Int := 30000000000

/-- Source constant `WEEKLY_GAMBLING_TRIES` (main.py line 36): 30
gambling attempts per week. -/
def WEEKLY_GAMBLING_TRIES : Nat := 30

/-- Source constant `LABOUR_COOLDOWN_HOURS` (main.py line 35). -/
def LABOUR_COOLDOWN_HOURS : Nat := 1

/-- One row of the `user_economy` table restricted to the columns the
economy core reads and writes: balance, win/loss counters, lifetime
totals, the admin flag, and the three nullable claim timestamps
(`daily_claimed`, `work_cooldown`, `admin_monthly_claimed`). -/
structure Account where
  gold : Int
  gambleWins : Nat
  gambleLosses : Nat
  totalGoldEarned : Int
  totalGoldSpent : Int
  isAdmin : Bool
  dailyClaimed : Option Nat
  workCooldown : Option Nat
  adminMonthlyClaimed : Option Nat
deriving Repr, DecidableEq

/-- `get_gold_cap` (main.py lines 522-526): the account ceiling, tiered
on the admin flag. -/
def get_gold_cap (e : Account) : Int :=
  if e.isAdmin then MAX_GOLD_ADMIN else MAX_GOLD_NORMAL

/-- Result of `update_user_balance`: the updated row together with the
returned pair `(new_gold, capped)`. -/
structure AdjustResult where
  state : Account
  newGold : Int
  capped : Bool
deriving Repr, DecidableEq

/-- `update_user_balance` (main.py lines 528-569), the balance engine's
`adjust`: clamp `current + gold_change` to `[0, gold_cap]`, update the
lifetime totals from the requested (unclamped) change, and report
`capped = (new_gold - current_gold < gold_change)`. -/
def update_user_balance (e : Account) (goldChange : Int) : AdjustResult :=
  let goldCap := get_gold_cap e
  let newGold := min (max 0 (e.gold + goldChange)) goldCap
  let newTotalEarned :=
    if goldChange > 0 then e.totalGoldEarned + goldChange else e.totalGoldEarned
  let newTotalSpent :=
    if goldChange > 0 then e.totalGoldSpent else e.totalGoldSpent + |goldChange|
  let state := { e with
    gold := newGold
    totalGoldEarned := newTotalEarned
    totalGoldSpent := newTotalSpent }
  let actualGoldChange := newGold - e.gold
  ⟨state, newGold, decide (actualGoldChange < goldChange)⟩

/-- A plain non-admin account used to instantiate witness theorems. -/
def sampleAccount : Account :=
  { gold := 100
    gambleWins := 0
    gambleLosses := 0
    totalGoldEarned := 100
    totalGoldSpent := 0
    isAdmin := false
    dailyClaimed := none
    workCooldown := none
    adminMonthlyClaimed := none }

/-- A non-admin account holding 5 gold, used to exhibit floor clamping. -/
def poorAccount : Account :=
  { sampleAccount with gold := 5, totalGoldEarned := 5 }

/-- `is_user_admin` (main.py lines 471-497): true when the stored admin
flag is set; otherwise, when the chat platform reports Administrator
permission (passed in as `discordAdmin`), the flag is persisted on the
row and the check succeeds. -/
def is_user_admin (e : Account) (discordAdmin : Bool) : Bool × Account :=
  if e.isAdmin then (true, e)
  else if discordAdmin then (true, { e with isAdmin := true })
  else (false, e)

/-- `can_claim_admin_monthly` (main.py lines 571-589): allowed when
`admin_monthly_claimed` is null or at least 2592000 seconds (30 days)
in the past. -/
def can_claim_admin_monthly (e : Account) (now : Nat) : Bool :=
  match e.adminMonthlyClaimed with
  | none => true
  | some t => decide ((2592000 : Int) ≤ (now : Int) - (t : Int))

/-- `claim_admin_monthly_bonus` (main.py lines 591-641): gate on
`is_user_admin`, the 30-day cooldown, and the platform Administrator
permission; on success update the row with `gold = gold +
ADMIN_MONTHLY_BONUS` (raw SQL, main.py line 619 — this credit is NOT
routed through `update_user_balance`, so there is no ceiling clamp) and
set `admin_monthly_claimed = now`.  The returned Bool is the success
flag; the message strings and the returned bonus amount are
presentation. -/
def claim_admin_monthly_bonus (e : Account) (now : Nat) (discordAdmin : Bool) :
    Account × Bool :=
  let p := is_user_admin e discordAdmin
  if p.1 = false then (p.2, false)
  else if can_claim_admin_monthly p.2 now = false then (p.2, false)
  else if discordAdmin = false then (p.2, false)
  else ({ p.2 with
            gold := p.2.gold + ADMIN_MONTHLY_BONUS
            adminMonthlyClaimed := some now }, true)

/-- `can_claim_daily` (main.py lines 643-661): allowed when
`daily_claimed` is null or at least 86400 seconds (24 hours) in the
past. -/
def can_claim_daily (e : Account) (now : Nat) : Bool :=
  match e.dailyClaimed with
  | none => true
  | some t => decide ((86400 : Int) ≤ (now : Int) - (t : Int))

/-- `claim_daily` (main.py lines 663-677): gate on `can_claim_daily`,
then credit the random stipend (`random.randint(3, 7)`, passed in here
as `dailyAmount`) through the balance engine and report success.
Faithful to the source: neither this function nor any of its callers
ever writes the `daily_claimed` column — the column is only read. -/
def claim_daily (e : Account) (now : Nat) (dailyAmount : Int) :
    Account × Bool × Int :=
  if can_claim_daily e now = false then (e, false, 0)
  else ((update_user_balance e dailyAmount).state, true, dailyAmount)

/-- `get_labour_cooldown_status` (main.py lines 679-705): ready when
`work_cooldown` is null or at least `LABOUR_COOLDOWN_HOURS * 3600`
seconds in the past; otherwise not ready, with the remaining seconds. -/
def get_labour_cooldown_status (e : Account) (now : Nat) : Bool × Int :=
  match e.workCooldown with
  | none => (true, 0)
  | some t =>
    let timeSince : Int := (now : Int) - (t : Int)
    let cooldownSeconds : Int := (LABOUR_COOLDOWN_HOURS : Int) * 3600
    if cooldownSeconds ≤ timeSince then (true, 0)
    else (false, cooldownSeconds - timeSince)

/-- `work` (main.py lines 707-732): gate on the labour cooldown, credit
the random wage (`random.randint(8, 15)`, passed in as `workAmount`)
through the balance engine, then write `work_cooldown = now`. -/
def work (e : Account) (now : Nat) (workAmount : Int) :
    Account × Bool × Int :=
  if (get_labour_cooldown_status e now).1 = false then (e, false, 0)
  else
    let r := update_user_balance e workAmount
    ({ r.state with workCooldown := some now }, true, workAmount)

/-- An admin account sitting exactly at the admin ceiling — reachable
through the clamped balance engine (for example by repeated credited
wins that clamp at the cap). -/
def cappedAdminAccount : Account :=
  { sampleAccount with
      isAdmin := true
      gold := MAX_GOLD_ADMIN
      totalGoldEarned := MAX_GOLD_ADMIN }

/-- `get_week_start` (main.py lines 429-436) for a timestamp expressed
in seconds since the Unix epoch: 00:00 UTC of the most recent Monday.
1970-01-01 was a Thursday, so epoch day `d` has Python weekday
`(d + 3) % 7` (Monday = 0); the source subtracts that many days plus
the time of day from `now`. -/
def get_week_start (now : Nat) : Nat :=
  let day := now / 86400
  let daysSinceMonday := (day + 3) % 7
  (day - daysSinceMonday) * 86400

/-- `can_gamble_weekly` (main.py lines 438-456): count the account's
gambling records stamped at or after the start of the current week
(`timestamp >= week_start` in the query); `remaining = max(0,
WEEKLY_GAMBLING_TRIES - count)` — Nat subtraction is exactly this
clamped difference — and gambling is allowed iff `remaining > 0`.
Returns `(allowed, remaining, current_tries)`. -/
def can_gamble_weekly (records : List Nat) (now : Nat) : Bool × Nat × Nat :=
  let weekStart := get_week_start now
  let currentTries := (records.filter (fun t => decide (weekStart ≤ t))).length
  let remaining := WEEKLY_GAMBLING_TRIES - currentTries
  (decide (0 < remaining), remaining, currentTries)

/-- The game-variant dispatch inside `gamble` (main.py lines 756-781):
given the uniform roll produced by `random.random()` (embedded as a
rational in `[0,1)`), `none` for an unknown variant, otherwise the
`(win, multiplier)` pair. -/
def game_outcome (gameType : String) (roll : ℚ) : Option (Bool × Int) :=
  if gameType = "dice" then
    let win := decide (roll < 1/2)
    some (win, if win then 2 else 0)
  else if gameType = "coin" then
    let win := decide (roll < 48/100)
    some (win, if win then 2 else 0)
  else if gameType = "slots" then
    if roll < 5/100 then some (true, 10)
    else if roll < 15/100 then some (true, 3)
    else if roll < 45/100 then some (true, 2)
    else some (false, 0)
  else none

/-- The state the wagering engine touches: the account row plus the
account's gambling-record timestamps. -/
structure GambleState where
  econ : Account
  records : List Nat
deriving Repr, DecidableEq

/-- The structured refusals of `gamble`; each corresponds to one
early-return reason string in main.py lines 740-781. -/
inductive GambleRefusal where
  | quotaExhausted
  | nonPositiveWager
  | insufficientFunds
  | atGoldCap
  | unknownGame
deriving Repr, DecidableEq

/-- The payload of the message accompanying a resolved wager: either
the capped-win notice quoting the new balance (main.py line 810) or the
remaining-tries note quoting `remaining_tries - 1` (line 814). -/
inductive GambleMsg where
  | cappedWin (newGold : Int)
  | triesRemaining (newRemaining : Nat)
deriving Repr, DecidableEq

/-- The triple `gamble` returns: a refusal stands for `(False, 0,
reason)` and an outcome for `(win, win_amount, message)`. -/
inductive GambleReply where
  | refusal (r : GambleRefusal)
  | outcome (win : Bool) (winAmount : Int) (msg : GambleMsg)
deriving Repr, DecidableEq

/-- `gamble` (main.py lines 734-820).  The `random.random()` roll is
passed in as `roll`; the lazy row creation of `get_user_balance` is
outside the model (the row is given).  Checks, in source order: weekly
quota, positive wager, wager within balance, balance strictly below the
ceiling; then resolves the game, routes `win_amount - amount` through
the balance engine, bumps the win or loss counter, and appends a
gambling record stamped `now`. -/
def gamble (s : GambleState) (now : Nat) (amount : Int) (gameType : String)
    (roll : ℚ) : GambleState × GambleReply :=
  let q := can_gamble_weekly s.records now
  if q.1 = false then (s, .refusal .quotaExhausted)
  else
    let e := s.econ
    let goldCap := get_gold_cap e
    if amount ≤ 0 then (s, .refusal .nonPositiveWager)
    else if e.gold < amount then (s, .refusal .insufficientFunds)
    else if goldCap ≤ e.gold then (s, .refusal .atGoldCap)
    else
      match game_outcome gameType roll with
      | none => (s, .refusal .unknownGame)
      | some (win, multiplier) =>
        let winAmount := if win then amount * multiplier else 0
        let netChange := winAmount - amount
        let r := update_user_balance e netChange
        let e2 :=
          if win then { r.state with gambleWins := r.state.gambleWins + 1 }
          else { r.state with gambleLosses := r.state.gambleLosses + 1 }
        let s2 : GambleState := ⟨e2, s.records ++ [now]⟩
        if r.capped = true ∧ win = true then
          (s2, .outcome win winAmount (.cappedWin r.newGold))
        else
          (s2, .outcome win winAmount (.triesRemaining (q.2.1 - 1)))

/-- The structured refusals of `transfer_gold` (main.py lines 829-840). -/
inductive TransferRefusal where
  | nonPositiveAmount
  | insufficientFunds
  | selfPayment
  | receiverOverCap
deriving Repr, DecidableEq

/-- `transfer_gold` (main.py lines 822-849): validate (positive amount,
sender can afford it, not a self-payment, receiver stays within their
ceiling), then move the amount with two balance-engine calls.  Returns
the updated sender row, updated receiver row, and the refusal if any
check failed. -/
def transfer_gold (sender receiver : Account) (senderId receiverId : Nat)
    (amount : Int) : Account × Account × Option TransferRefusal :=
  if amount ≤ 0 then (sender, receiver, some .nonPositiveAmount)
  else if sender.gold < amount then (sender, receiver, some .insufficientFunds)
  else if senderId = receiverId then (sender, receiver, some .selfPayment)
  else if get_gold_cap receiver < receiver.gold + amount then
    (sender, receiver, some .receiverOverCap)
  else
    ((update_user_balance sender (-amount)).state,
     (update_user_balance receiver amount).state, none)

/-- A shop item restricted to what `buy_item` reads of it: price and
remaining stock (`-1` meaning unlimited). -/
structure ShopItem where
  price : Int
  stock : Int
deriving Repr, DecidableEq

/-- The structured refusals of `buy_item` (main.py lines 921-984). -/
inductive BuyRefusal where
  | noSuchItem
  | soldOut
  | insufficientFunds
  | overCap
  | alreadyOwned
deriving Repr, DecidableEq

/-- `buy_item` (main.py lines 921-984), restricted to its effect on the
buyer's account row: item lookup (`none` = no such item), the sold-out
check, the affordability check, the over-cap test of line 945 (written
`user_gold - price > gold_cap` in the source), and the
already-owns-the-role check; then the price is deducted through the
balance engine.  Stock decrement, inventory insert and the role grant
touch other tables and are outside the account model. -/
def buy_item (e : Account) (item : Option ShopItem) (alreadyOwned : Bool) :
    Account × Option BuyRefusal :=
  match item with
  | none => (e, some .noSuchItem)
  | some it =>
    if it.stock = 0 then (e, some .soldOut)
    else if e.gold < it.price then (e, some .insufficientFunds)
    else if get_gold_cap e < e.gold - it.price then (e, some .overCap)
    else if alreadyOwned = true then (e, some .alreadyOwned)
    else ((update_user_balance e (-it.price)).state, none)

/-- One row of `active_giveaways` restricted to what the drawing
lifecycle reads and writes. -/
structure Giveaway where
  status : String
  winnerCount : Nat
  prizeAmount : Int
deriving Repr, DecidableEq

/-- The drawing-lifecycle state: the drawing row, its entry list (one
user id per entry, unique by the duplicate check in `enter_giveaway`,
main.py lines 1031-1052), and the guild's account rows. -/
structure DrawState where
  giveaway : Giveaway
  entries : List Nat
  accounts : Nat → Account

/-- Model of `random.sample(l, k)`: `k` draws without replacement, each
draw removing the chosen element, the choices supplied by `seed` (the
i-th draw takes the element at position `seed_i % remaining`).  Every
size-`k` selection is reached by some seed; uniformity over them is the
property of `random.sample` itself. -/
def sample : List Nat → Nat → List Nat → List Nat
  | _, 0, _ => []
  | l, k + 1, seed =>
    if hl : l = [] then []
    else
      let j := seed.headD 0 % l.length
      let x := l.get ⟨j, Nat.mod_lt _ (List.length_pos.mpr hl)⟩
      x :: sample (l.erase x) k seed.tail

/-- The payout loop of `end_giveaway` (main.py lines 1102-1103): credit
`prize` to each listed winner's row in turn through the balance
engine. -/
def payWinners (prize : Int) : List Nat → (Nat → Account) → Nat → Account
  | [], accounts => accounts
  | w :: ws, accounts =>
    payWinners prize ws
      (fun uid =>
        if uid = w then (update_user_balance (accounts w) prize).state
        else accounts uid)

/-- `end_giveaway` (main.py lines 1068-1109): fetch the drawing only
when its status is still `active` (otherwise return Python's
`(None, None)` and change nothing); with no entries just flip the
status to `ended`; otherwise draw `min(winner_count, entry_count)`
winners without replacement, flip the status, and credit each winner
`prize_amount` through the balance engine.  The second component models
the returned winner list, `none` standing for `None`. -/
def end_giveaway (s : DrawState) (seed : List Nat) :
    DrawState × Option (List Nat) :=
  if s.giveaway.status ≠ "active" then (s, none)
  else if s.entries = [] then
    ({ s with giveaway := { s.giveaway with status := "ended" } }, some [])
  else
    let wc := min s.giveaway.winnerCount s.entries.length
    let winners := sample s.entries wc seed
    ({ s with
        giveaway := { s.giveaway with status := "ended" }
        accounts := payWinners s.giveaway.prizeAmount winners s.accounts },
     some winners)

/-- The structured refusals of the tournament-creation command
(main.py lines 1923-2021; the slash variant at lines 3053-3145 performs
the identical checks and deduction). -/
inductive TournamentRefusal where
  | noPermission
  | badDuration
  | badWinnerCount
  | badPrize
  | insufficientGold
deriving Repr, DecidableEq

/-- `tournament_cmd` (main.py lines 1923-2021): the host-permission
gate, then the duration bound (5 to 1440 minutes), the winner-count
bound (1 to 10) and the minimum prize (at least 1), then the funds
check against `total_prize = prize_amount * winner_count`; when
everything passes and the database insert succeeds (`createOk`), the
total prize is deducted from the host through the balance engine.
Returns the updated host row, the refusal if a check failed, and
whether the drawing was created. -/
def tournament_cmd (host : Account) (hasPermission : Bool)
    (durationMinutes winnerCount prizeAmount : Int) (createOk : Bool) :
    Account × Option TournamentRefusal × Bool :=
  if hasPermission = false then (host, some .noPermission, false)
  else if durationMinutes < 5 ∨ 1440 < durationMinutes then
    (host, some .badDuration, false)
  else if winnerCount < 1 ∨ 10 < winnerCount then
    (host, some .badWinnerCount, false)
  else if prizeAmount < 1 then (host, some .badPrize, false)
  else
    let totalPrize := prizeAmount * winnerCount
    if host.gold < totalPrize then (host, some .insufficientGold, false)
    else if createOk = false then (host, none, false)
    else ((update_user_balance host (-totalPrize)).state, none, true)

/-- The balance invariant of the spec: a non-negative balance bounded
by the account's tier ceiling. -/
def BalanceInv (e : Account) : Prop :=
  0 ≤ e.gold ∧ e.gold ≤ get_gold_cap e

instance (e : Account) : Decidable (BalanceInv e) := by
  unfold BalanceInv
  infer_instance

/-- A non-admin account one gold below its 50-billion ceiling, used to
exhibit a clamped winning wager. -/
def nearCapAccount : Account :=
  { sampleAccount with
      gold := MAX_GOLD_NORMAL - 1
      totalGoldEarned := MAX_GOLD_NORMAL - 1 }

/-- Wagering state for `nearCapAccount` with no gambling records. -/
def nearCapState : GambleState :=
  { econ := nearCapAccount, records := [] }

/-- Wagering state that has used all 30 weekly tries (30 records in the
current week window). -/
def exhaustedState : GambleState :=
  { econ := sampleAccount, records := List.replicate 30 5 }

/-- Wagering state for `sampleAccount` with no gambling records. -/
def freshState : GambleState :=
  { econ := sampleAccount, records := [] }

end Econ

namespace Econ

/-- C6 counterexample: the claim says `was_capped` is true whenever
clamping (at either bound) makes the applied change differ from the
requested delta.  Spending 10 from a balance of 5 floor-clamps to 0, so
the applied change is -5, not the requested -10, yet the code returns
`capped = false` (the test `new_gold - current_gold < gold_change` never
fires at the zero floor). -/
theorem update_user_balance_floor_clamp_not_flagged :
    (update_user_balance poorAccount (-10)).state.gold -
        poorAccount.gold ≠ (-10 : Int) ∧
    (update_user_balance poorAccount (-10)).capped = false := by
  constructor
  · decide
  · decide

/-- C6 (amended): `adjust` computes the new balance as `current + delta`
clamped to `[0, ceiling]` and never fails for insufficient funds (the
result is total and the new balance is never negative), but the returned
`was_capped` flag is true iff the applied change is strictly LESS than
the requested delta, i.e. exactly when `current + delta` exceeds the
ceiling; floor clamping at zero reports `was_capped = false`. -/
theorem update_user_balance_spec (e : Account) (goldChange : Int) :
    (update_user_balance e goldChange).state.gold =
        min (max 0 (e.gold + goldChange)) (get_gold_cap e) ∧
    (update_user_balance e goldChange).newGold =
        (update_user_balance e goldChange).state.gold ∧
    0 ≤ (update_user_balance e goldChange).state.gold ∧
    ((update_user_balance e goldChange).capped = true ↔
        get_gold_cap e < e.gold + goldChange) := by
  have hcap : (0 : Int) ≤ get_gold_cap e := by
    unfold get_gold_cap MAX_GOLD_ADMIN MAX_GOLD_NORMAL
    split <;> norm_num
  refine ⟨rfl, rfl, ?_, ?_⟩
  · simp only [update_user_balance]
    omega
  · simp only [update_user_balance, decide_eq_true_eq]
    omega

/-- C7: `adjust` with a positive delta adds exactly the delta to
lifetime-earned and leaves lifetime-spent unchanged; with a negative
delta it adds the absolute value to lifetime-spent and leaves
lifetime-earned unchanged; this happens unconditionally, even when the
balance change itself is clamped, and both counters are monotonically
non-decreasing for every delta. -/
theorem update_user_balance_lifetime_counters (e : Account) (goldChange : Int) :
    ((0 : Int) < goldChange →
      (update_user_balance e goldChange).state.totalGoldEarned =
          e.totalGoldEarned + goldChange ∧
      (update_user_balance e goldChange).state.totalGoldSpent =
          e.totalGoldSpent) ∧
    (goldChange < 0 →
      (update_user_balance e goldChange).state.totalGoldSpent =
          e.totalGoldSpent + |goldChange| ∧
      (update_user_balance e goldChange).state.totalGoldEarned =
          e.totalGoldEarned) ∧
    e.totalGoldEarned ≤ (update_user_balance e goldChange).state.totalGoldEarned ∧
    e.totalGoldSpent ≤ (update_user_balance e goldChange).state.totalGoldSpent := by
  simp only [update_user_balance]
  refine ⟨?_, ?_, ?_, ?_⟩
  · intro h
    simp [h]
  · intro h
    have hng : ¬ (goldChange > 0) := by omega
    simp [hng]
  · split <;> omega
  · have := abs_nonneg goldChange
    split <;> omega

/-- Witness for C7 at a concrete account: a +5 adjustment raises
lifetime-earned by 5, and a -4 adjustment raises lifetime-spent by 4. -/
theorem update_user_balance_lifetime_counters_witness :
    (update_user_balance sampleAccount 5).state.totalGoldEarned =
        sampleAccount.totalGoldEarned + 5 ∧
    (update_user_balance sampleAccount (-4)).state.totalGoldSpent =
        sampleAccount.totalGoldSpent + 4 := by
  refine ⟨((update_user_balance_lifetime_counters sampleAccount 5).1 (by decide)).1, ?_⟩
  have h := ((update_user_balance_lifetime_counters sampleAccount (-4)).2.1 (by decide)).1
  simpa using h

/-- C1 counterexample: the admin monthly bonus does not preserve the
balance invariant.  An admin account holding exactly its 100-billion
ceiling successfully claims the monthly bonus, and the raw update
`gold = gold + 30000000000` (main.py line 619, not routed through the
clamping balance engine) leaves the balance at 130 billion, strictly
above the account's ceiling. -/
theorem claim_admin_monthly_bonus_breaks_ceiling :
    (claim_admin_monthly_bonus cappedAdminAccount 0 true).2 = true ∧
    get_gold_cap (claim_admin_monthly_bonus cappedAdminAccount 0 true).1 <
        (claim_admin_monthly_bonus cappedAdminAccount 0 true).1.gold := by
  exact ⟨by decide, by decide⟩

/-- C2 failing input: the daily claim never stamps its timestamp.  On a
fresh account (`daily_claimed` null) at time 1000, `claim_daily`
succeeds, yet the resulting row still has `daily_claimed` null (no code
path ever writes that column), so `can_claim_daily` is immediately true
again and a second claim at the very same instant succeeds as well —
contradicting the claimed 24-hour lockout.  (The labour and
admin-monthly kinds do stamp their timestamps; see
`work_stamps_cooldown` and `claim_admin_monthly_bonus_stamps`.) -/
theorem claim_daily_never_stamps_timestamp :
    (claim_daily sampleAccount 1000 5).2.1 = true ∧
    (claim_daily sampleAccount 1000 5).1.dailyClaimed = none ∧
    can_claim_daily (claim_daily sampleAccount 1000 5).1 1000 = true ∧
    (claim_daily (claim_daily sampleAccount 1000 5).1 1000 5).2.1 = true := by
  exact ⟨by decide, by decide, by decide, by decide⟩

/-- The general form of the daily defect: a successful `claim_daily`
leaves the `daily_claimed` column exactly as it was. -/
theorem claim_daily_leaves_timestamp (e : Account) (now : Nat) (amount : Int) :
    (claim_daily e now amount).1.dailyClaimed = e.dailyClaimed := by
  unfold claim_daily
  split
  · rfl
  · rfl

/-- A successful `work` writes `work_cooldown = now`, and the labour
gate then refuses until a full hour has elapsed: at any instant
`now2 ≥ now` strictly inside the hour the status is not-ready with the
exact remaining seconds, and from one hour onward it is ready again. -/
theorem work_stamps_cooldown (e : Account) (now : Nat) (amount : Int)
    (h : (work e now amount).2.1 = true) :
    (work e now amount).1.workCooldown = some now ∧
    (∀ now2 : Nat, now ≤ now2 → now2 < now + 3600 →
      get_labour_cooldown_status (work e now amount).1 now2 =
        (false, (3600 : Int) - ((now2 : Int) - (now : Int)))) ∧
    (∀ now2 : Nat, now + 3600 ≤ now2 →
      get_labour_cooldown_status (work e now amount).1 now2 = (true, 0)) := by
  simp only [work] at h ⊢
  by_cases hc : (get_labour_cooldown_status e now).1 = false
  · rw [if_pos hc] at h
    simp at h
  · rw [if_neg hc] at h ⊢
    refine ⟨rfl, ?_, ?_⟩
    · intro now2 h1 h2
      simp only [get_labour_cooldown_status, LABOUR_COOLDOWN_HOURS, Nat.cast_one]
      have hlt : ¬ ((1 : Int) * 3600 ≤ (now2 : Int) - (now : Int)) := by omega
      rw [if_neg hlt]
      norm_num
    · intro now2 h1
      simp only [get_labour_cooldown_status, LABOUR_COOLDOWN_HOURS, Nat.cast_one]
      have hle : (1 : Int) * 3600 ≤ (now2 : Int) - (now : Int) := by omega
      rw [if_pos hle]

/-- Witness for `work_stamps_cooldown` at a concrete account and time. -/
theorem work_stamps_cooldown_witness :
    (work sampleAccount 1000 8).1.workCooldown = some 1000 ∧
    get_labour_cooldown_status (work sampleAccount 1000 8).1 1001 =
      (false, 3599) ∧
    get_labour_cooldown_status (work sampleAccount 1000 8).1 4600 = (true, 0) := by
  have h := work_stamps_cooldown sampleAccount 1000 8 (by decide)
  refine ⟨h.1, ?_, h.2.2 4600 (by omega)⟩
  have h2 := h.2.1 1001 (by omega) (by omega)
  simpa using h2

/-- A successful `claim_admin_monthly_bonus` writes
`admin_monthly_claimed = now`, and the 30-day gate then refuses until
2592000 seconds have elapsed, after which it allows again. -/
theorem claim_admin_monthly_bonus_stamps (e : Account) (now : Nat)
    (discordAdmin : Bool)
    (h : (claim_admin_monthly_bonus e now discordAdmin).2 = true) :
    (claim_admin_monthly_bonus e now discordAdmin).1.adminMonthlyClaimed =
        some now ∧
    (∀ now2 : Nat, now2 < now + 2592000 →
      can_claim_admin_monthly
        (claim_admin_monthly_bonus e now discordAdmin).1 now2 = false) ∧
    (∀ now2 : Nat, now + 2592000 ≤ now2 →
      can_claim_admin_monthly
        (claim_admin_monthly_bonus e now discordAdmin).1 now2 = true) := by
  simp only [claim_admin_monthly_bonus] at h ⊢
  by_cases h1 : (is_user_admin e discordAdmin).1 = false
  · rw [if_pos h1] at h
    simp at h
  · rw [if_neg h1] at h ⊢
    by_cases h2 : can_claim_admin_monthly (is_user_admin e discordAdmin).2 now = false
    · rw [if_pos h2] at h
      simp at h
    · rw [if_neg h2] at h ⊢
      by_cases h3 : discordAdmin = false
      · rw [if_pos h3] at h
        simp at h
      · rw [if_neg h3] at h ⊢
        refine ⟨rfl, ?_, ?_⟩
        · intro now2 h4
          simp only [can_claim_admin_monthly, decide_eq_false_iff_not, not_le]
          omega
        · intro now2 h4
          simp only [can_claim_admin_monthly, decide_eq_true_eq]
          omega

/-- Witness for `claim_admin_monthly_bonus_stamps`: a fresh admin
account claims at time 0; the gate refuses one second before the 30-day
mark and allows at it. -/
theorem claim_admin_monthly_bonus_stamps_witness :
    (claim_admin_monthly_bonus cappedAdminAccount 0 true).1.adminMonthlyClaimed =
        some 0 ∧
    can_claim_admin_monthly
        (claim_admin_monthly_bonus cappedAdminAccount 0 true).1 2591999 = false ∧
    can_claim_admin_monthly
        (claim_admin_monthly_bonus cappedAdminAccount 0 true).1 2592000 = true := by
  have h := claim_admin_monthly_bonus_stamps cappedAdminAccount 0 true (by decide)
  exact ⟨h.1, h.2.1 2591999 (by omega), h.2.2 2592000 (by omega)⟩

/-- Both tier ceilings are non-negative. -/
theorem gold_cap_nonneg (e : Account) : 0 ≤ get_gold_cap e := by
  unfold get_gold_cap MAX_GOLD_ADMIN MAX_GOLD_NORMAL
  split <;> norm_num

/-- The balance engine's output row always satisfies the balance
invariant, whatever the input row and delta. -/
theorem update_user_balance_inv (e : Account) (c : Int) :
    BalanceInv (update_user_balance e c).state := by
  have h1 := gold_cap_nonneg e
  have h2 : get_gold_cap (update_user_balance e c).state = get_gold_cap e := rfl
  unfold BalanceInv
  rw [h2]
  simp only [update_user_balance]
  constructor <;> omega

/-- The balance invariant only looks at the balance and the admin flag. -/
theorem balanceInv_of_gold_isAdmin (e f : Account) (hg : f.gold = e.gold)
    (ha : f.isAdmin = e.isAdmin) (h : BalanceInv e) : BalanceInv f := by
  unfold BalanceInv get_gold_cap at *
  rw [hg, ha]
  exact h

/-- C3: `gamble` checks its preconditions in source order with the
first failure winning — (a) weekly quota, (b) positive wager, (c) wager
within balance, (d) balance strictly below the ceiling — and on each
such failure returns the matching structured refusal with the state
completely untouched (no balance change, no gambling record, no
counter change); moreover, whenever every stored record was stamped
before `now`, the quota gate passes exactly when fewer than 30 records
fall in the window `[week_start, now)`. -/
theorem gamble_precondition_order (s : GambleState) (now : Nat) (amount : Int)
    (gameType : String) (roll : ℚ) :
    ((can_gamble_weekly s.records now).1 = false →
      gamble s now amount gameType roll = (s, .refusal .quotaExhausted)) ∧
    ((can_gamble_weekly s.records now).1 = true → amount ≤ 0 →
      gamble s now amount gameType roll = (s, .refusal .nonPositiveWager)) ∧
    ((can_gamble_weekly s.records now).1 = true → 0 < amount →
      s.econ.gold < amount →
      gamble s now amount gameType roll = (s, .refusal .insufficientFunds)) ∧
    ((can_gamble_weekly s.records now).1 = true → 0 < amount →
      amount ≤ s.econ.gold → get_gold_cap s.econ ≤ s.econ.gold →
      gamble s now amount gameType roll = (s, .refusal .atGoldCap)) ∧
    ((∀ t ∈ s.records, t < now) →
      ((can_gamble_weekly s.records now).1 = true ↔
        (s.records.filter
          (fun t => decide (get_week_start now ≤ t ∧ t < now))).length <
            WEEKLY_GAMBLING_TRIES)) := by
  refine ⟨?_, ?_, ?_, ?_, ?_⟩
  · intro hq
    simp [gamble, hq]
  · intro hq ha
    simp [gamble, hq, ha]
  · intro hq ha hg
    have ha2 : ¬ amount ≤ 0 := by omega
    simp [gamble, hq, ha2, hg]
  · intro hq ha hg hc
    have ha2 : ¬ amount ≤ 0 := by omega
    have hg2 : ¬ s.econ.gold < amount := by omega
    simp [gamble, hq, ha2, hg2, hc]
  · intro hall
    have hfil : s.records.filter (fun t => decide (get_week_start now ≤ t)) =
        s.records.filter
          (fun t => decide (get_week_start now ≤ t ∧ t < now)) := by
      apply List.filter_congr
      intro t ht
      have hlt := hall t ht
      simp [hlt]
    simp only [can_gamble_weekly, hfil, decide_eq_true_eq]
    omega

/-- Witness for C3: a state with 30 records this week is refused for
quota before the wager is even inspected, and a zero wager (with quota
available) is refused as non-positive — in both cases state
untouched. -/
theorem gamble_precondition_order_witness :
    gamble exhaustedState 1000 10 "dice" 0 =
      (exhaustedState, .refusal .quotaExhausted) ∧
    gamble nearCapState 1000 0 "dice" 0 =
      (nearCapState, .refusal .nonPositiveWager) := by
  constructor
  · exact (gamble_precondition_order exhaustedState 1000 10 "dice" 0).1 (by decide)
  · exact (gamble_precondition_order nearCapState 1000 0 "dice" 0).2.1
      (by decide) (by decide)

/-- C10: a transfer whose amount would push the receiver past their
ceiling is refused with a reason and mutates neither account's balance
— the transfer is rejected outright rather than clamped by `adjust`. -/
theorem transfer_refused_when_receiver_over_cap (sender receiver : Account)
    (senderId receiverId : Nat) (amount : Int)
    (h : get_gold_cap receiver < receiver.gold + amount) :
    (transfer_gold sender receiver senderId receiverId amount).1 = sender ∧
    (transfer_gold sender receiver senderId receiverId amount).2.1 = receiver ∧
    ∃ r, (transfer_gold sender receiver senderId receiverId amount).2.2 =
        some r := by
  unfold transfer_gold
  split_ifs <;> exact ⟨rfl, rfl, _, rfl⟩

/-- Witness for C10: paying 2 gold to an account one gold below its
ceiling is refused and both rows are unchanged. -/
theorem transfer_refused_when_receiver_over_cap_witness :
    (transfer_gold sampleAccount nearCapAccount 1 2 2).1 = sampleAccount ∧
    (transfer_gold sampleAccount nearCapAccount 1 2 2).2.1 = nearCapAccount ∧
    ∃ r, (transfer_gold sampleAccount nearCapAccount 1 2 2).2.2 = some r :=
  transfer_refused_when_receiver_over_cap sampleAccount nearCapAccount 1 2 2
    (by decide)

/-- Helper: the resolved-wager path of `gamble` in closed form — once
every precondition passes and the variant resolves to `(win, mult)`,
the engine credits `win_amount - amount`, bumps the matching counter,
appends a record stamped `now`, and picks the capped-win message
exactly when the clamp fired on a win. -/
theorem gamble_resolved (s : GambleState) (now : Nat) (amount : Int)
    (gameType : String) (roll : ℚ) (win : Bool) (mult : Int)
    (hq : (can_gamble_weekly s.records now).1 = true)
    (h1 : 0 < amount) (h2 : amount ≤ s.econ.gold)
    (h3 : s.econ.gold < get_gold_cap s.econ)
    (ho : game_outcome gameType roll = some (win, mult)) :
    gamble s now amount gameType roll =
      (let winAmount : Int := if win = true then amount * mult else 0
       let r := update_user_balance s.econ (winAmount - amount)
       let e2 := if win = true
         then { r.state with gambleWins := r.state.gambleWins + 1 }
         else { r.state with gambleLosses := r.state.gambleLosses + 1 }
       (⟨e2, s.records ++ [now]⟩,
        if r.capped = true ∧ win = true then
          GambleReply.outcome win winAmount (GambleMsg.cappedWin r.newGold)
        else
          GambleReply.outcome win winAmount
            (GambleMsg.triesRemaining
              ((can_gamble_weekly s.records now).2.1 - 1)))) := by
  have hq2 : ¬ ((can_gamble_weekly s.records now).1 = false) := by simp [hq]
  have ha2 : ¬ amount ≤ 0 := by omega
  have hg2 : ¬ s.econ.gold < amount := by omega
  have hc2 : ¬ get_gold_cap s.econ ≤ s.econ.gold := by omega
  simp only [gamble]
  rw [if_neg hq2, if_neg ha2, if_neg hg2, if_neg hc2]
  simp only [ho]
  split <;> split <;> rfl

/-- Dispatch of `game_outcome` at the dice variant. -/
theorem game_outcome_dice (roll : ℚ) :
    game_outcome "dice" roll =
      some (decide (roll < 1/2), if decide (roll < 1/2) then 2 else 0) := rfl

/-- Dispatch of `game_outcome` at the coin variant. -/
theorem game_outcome_coin (roll : ℚ) :
    game_outcome "coin" roll =
      some (decide (roll < 48/100), if decide (roll < 48/100) then 2 else 0) :=
  rfl

/-- Dispatch of `game_outcome` at the slots variant. -/
theorem game_outcome_slots (roll : ℚ) :
    game_outcome "slots" roll =
      if roll < 5/100 then some (true, 10)
      else if roll < 15/100 then some (true, 3)
      else if roll < 45/100 then some (true, 2)
      else some (false, 0) := rfl

/-- C9: the wagering outcome table and payout routing.  For a uniform
roll in `[0,1)`: dice wins exactly on `[0, 0.5)` at multiplier 2, coin
on `[0, 0.48)` at 2; slots pays 10× on `[0, 0.05)`, 3× on
`[0.05, 0.15)`, 2× on `[0.15, 0.45)` and loses on `[0.45, 1)`.  A
resolved wager returns payout `multiplier × wager` on a win and 0 on a
loss and routes exactly `payout - wager` through the balance engine
(so a loss is a negative delta of the full wager); any other variant
string is refused with the unknown-game reason and no state change. -/
theorem gamble_outcome_table (roll : ℚ) (_hr0 : 0 ≤ roll) (hr1 : roll < 1) :
    (roll < 1/2 → game_outcome "dice" roll = some (true, 2)) ∧
    (1/2 ≤ roll → game_outcome "dice" roll = some (false, 0)) ∧
    (roll < 48/100 → game_outcome "coin" roll = some (true, 2)) ∧
    (48/100 ≤ roll → game_outcome "coin" roll = some (false, 0)) ∧
    (roll < 5/100 → game_outcome "slots" roll = some (true, 10)) ∧
    (5/100 ≤ roll → roll < 15/100 →
      game_outcome "slots" roll = some (true, 3)) ∧
    (15/100 ≤ roll → roll < 45/100 →
      game_outcome "slots" roll = some (true, 2)) ∧
    (45/100 ≤ roll → game_outcome "slots" roll = some (false, 0)) ∧
    (∀ gameType : String, gameType ≠ "dice" → gameType ≠ "coin" →
      gameType ≠ "slots" → game_outcome gameType roll = none ∧
      ∀ (s : GambleState) (now : Nat) (amount : Int),
        (can_gamble_weekly s.records now).1 = true → 0 < amount →
        amount ≤ s.econ.gold → s.econ.gold < get_gold_cap s.econ →
        gamble s now amount gameType roll =
          (s, .refusal .unknownGame)) ∧
    (∀ (s : GambleState) (now : Nat) (amount : Int) (gameType : String)
        (win : Bool) (mult : Int),
      (can_gamble_weekly s.records now).1 = true → 0 < amount →
      amount ≤ s.econ.gold → s.econ.gold < get_gold_cap s.econ →
      game_outcome gameType roll = some (win, mult) →
      (gamble s now amount gameType roll).1.econ.gold =
        (update_user_balance s.econ
          ((if win = true then amount * mult else 0) - amount)).state.gold ∧
      ∃ msg, (gamble s now amount gameType roll).2 =
        GambleReply.outcome win
          (if win = true then amount * mult else 0) msg) := by
  refine ⟨?_, ?_, ?_, ?_, ?_, ?_, ?_, ?_, ?_, ?_⟩
  · intro h
    rw [game_outcome_dice, decide_eq_true h]
    rfl
  · intro h
    rw [game_outcome_dice, decide_eq_false (not_lt.mpr h)]
    rfl
  · intro h
    rw [game_outcome_coin, decide_eq_true h]
    rfl
  · intro h
    rw [game_outcome_coin, decide_eq_false (not_lt.mpr h)]
    rfl
  · intro h
    rw [game_outcome_slots, if_pos h]
  · intro ha hb
    rw [game_outcome_slots, if_neg (not_lt.mpr ha), if_pos hb]
  · intro ha hb
    have h5 : ¬ roll < 5/100 := by linarith
    rw [game_outcome_slots, if_neg h5, if_neg (not_lt.mpr ha), if_pos hb]
  · intro ha
    have h5 : ¬ roll < 5/100 := by linarith
    have h15 : ¬ roll < 15/100 := by linarith
    rw [game_outcome_slots, if_neg h5, if_neg h15, if_neg (not_lt.mpr ha)]
  · intro gameType hd hc hs
    have ho : game_outcome gameType roll = none := by
      unfold game_outcome
      rw [if_neg hd, if_neg hc, if_neg hs]
    refine ⟨ho, ?_⟩
    intro s now amount hq ha hg hcap
    have ha2 : ¬ amount ≤ 0 := by omega
    have hg2 : ¬ s.econ.gold < amount := by omega
    have hc2 : ¬ get_gold_cap s.econ ≤ s.econ.gold := by omega
    simp [gamble, hq, ha2, hg2, hc2, ho]
  · intro s now amount gameType win mult hq ha hg hcap ho
    rw [gamble_resolved s now amount gameType roll win mult hq ha hg hcap ho]
    constructor
    · cases win <;> rfl
    · by_cases hcapped :
        (update_user_balance s.econ
          ((if win = true then amount * mult else 0) - amount)).capped = true ∧
          win = true
      · refine ⟨GambleMsg.cappedWin
          (update_user_balance s.econ
            ((if win = true then amount * mult else 0) - amount)).newGold, ?_⟩
        simp only [if_pos hcapped]
      · refine ⟨GambleMsg.triesRemaining
          ((can_gamble_weekly s.records now).2.1 - 1), ?_⟩
        simp only [if_neg hcapped]

/-- Witness for C9 at concrete rolls: a dice roll of 1/4 wins at 2×, a
slots roll of 1/5 pays 2×, an unknown variant resolves to nothing, and
a losing 10-gold dice wager routes net -10 through the balance
engine. -/
theorem gamble_outcome_table_witness :
    game_outcome "dice" (1/4) = some (true, 2) ∧
    game_outcome "slots" (1/5) = some (true, 2) ∧
    game_outcome "wheel" (1/4) = none ∧
    (gamble freshState 1000 10 "dice" (3/4)).1.econ.gold =
      (update_user_balance sampleAccount
        ((if (false : Bool) = true then 10 * 0 else 0) - 10)).state.gold := by
  refine ⟨?_, ?_, ?_, ?_⟩
  · exact (gamble_outcome_table (1/4) (by norm_num) (by norm_num)).1
      (by norm_num)
  · exact (gamble_outcome_table (1/5) (by norm_num)
      (by norm_num)).2.2.2.2.2.2.1 (by norm_num) (by norm_num)
  · exact ((gamble_outcome_table (1/4) (by norm_num)
      (by norm_num)).2.2.2.2.2.2.2.2.1 "wheel" (by decide) (by decide)
      (by decide)).1
  · exact ((gamble_outcome_table (3/4) (by norm_num)
      (by norm_num)).2.2.2.2.2.2.2.2.2 freshState 1000 10 "dice" false 0
      (by decide) (by decide) (by decide) (by decide)
      ((gamble_outcome_table (3/4) (by norm_num) (by norm_num)).2.1
        (by norm_num))).1

/-- The `capped` flag of the balance engine is set exactly when the
requested change overruns the ceiling. -/
theorem update_user_balance_capped_iff (e : Account) (c : Int) :
    (update_user_balance e c).capped = true ↔
      get_gold_cap e < e.gold + c := by
  have := gold_cap_nonneg e
  simp only [update_user_balance, decide_eq_true_eq]
  omega

/-- C8 counterexample: with a balance one gold below the 50-billion
ceiling, a 10-gold dice win at roll 0 nominally pays 20 and nets +10,
but the clamp credits only +1; the engine still returns the nominal
payout 20 — not the clamped amount actually credited — and its
capped-win message quotes the new balance (50 billion), not the
credited amount either. -/
theorem gamble_capped_win_reports_nominal :
    (gamble nearCapState 1000 10 "dice" 0).2 =
      GambleReply.outcome true 20 (GambleMsg.cappedWin 50000000000) ∧
    (gamble nearCapState 1000 10 "dice" 0).1.econ.gold -
        nearCapState.econ.gold = 1 ∧
    (20 : Int) ≠ 1 := by
  have ho : game_outcome "dice" 0 = some (true, 2) := by
    rw [game_outcome_dice, decide_eq_true (by norm_num : (0 : ℚ) < 1/2)]
    rfl
  have hres := gamble_resolved nearCapState 1000 10 "dice" 0 true 2
    (by decide) (by decide) (by decide) (by decide) ho
  refine ⟨?_, ?_, by decide⟩
  · rw [hres]
    decide
  · rw [hres]
    decide

/-- C8 (amended): on a winning wager whose credit is clamped by the
ceiling, the engine returns the NOMINAL payout `multiplier × wager`
unchanged; the clamping shows up only in the balance itself (which
lands exactly on the ceiling, so the credited amount is strictly less
than the nominal net) and in the capped-win message, which quotes the
new balance. -/
theorem gamble_capped_win_payout (s : GambleState) (now : Nat) (amount : Int)
    (gameType : String) (roll : ℚ) (mult : Int)
    (hq : (can_gamble_weekly s.records now).1 = true)
    (h1 : 0 < amount) (h2 : amount ≤ s.econ.gold)
    (h3 : s.econ.gold < get_gold_cap s.econ)
    (ho : game_outcome gameType roll = some (true, mult))
    (hcap : (update_user_balance s.econ (amount * mult - amount)).capped =
      true) :
    (gamble s now amount gameType roll).2 =
      GambleReply.outcome true (amount * mult)
        (GambleMsg.cappedWin
          (update_user_balance s.econ (amount * mult - amount)).newGold) ∧
    (gamble s now amount gameType roll).1.econ.gold = get_gold_cap s.econ ∧
    (gamble s now amount gameType roll).1.econ.gold - s.econ.gold <
      amount * mult - amount := by
  have hres := gamble_resolved s now amount gameType roll true mult hq h1 h2
    h3 ho
  have hcap2 : (update_user_balance s.econ
      ((if (true : Bool) = true then amount * mult else 0) - amount)).capped =
      true := hcap
  have hlt : get_gold_cap s.econ < s.econ.gold + (amount * mult - amount) :=
    (update_user_balance_capped_iff s.econ (amount * mult - amount)).mp hcap
  have hcnn := gold_cap_nonneg s.econ
  have hgold : (gamble s now amount gameType roll).1.econ.gold =
      (update_user_balance s.econ (amount * mult - amount)).state.gold := by
    rw [hres]
    rfl
  have hgold2 : (update_user_balance s.econ
      (amount * mult - amount)).state.gold =
      min (max 0 (s.econ.gold + (amount * mult - amount)))
        (get_gold_cap s.econ) := rfl
  refine ⟨?_, ?_, ?_⟩
  · rw [hres]
    exact if_pos ⟨hcap2, rfl⟩
  · rw [hgold, hgold2]
    generalize amount * mult - amount = net at hlt
    omega
  · rw [hgold, hgold2]
    generalize amount * mult - amount = net at hlt ⊢
    omega

/-- Witness for the amended C8 at the concrete clamped dice win. -/
theorem gamble_capped_win_payout_witness :
    (gamble nearCapState 1000 10 "dice" 0).2 =
      GambleReply.outcome true (10 * 2)
        (GambleMsg.cappedWin
          (update_user_balance nearCapAccount (10 * 2 - 10)).newGold) ∧
    (gamble nearCapState 1000 10 "dice" 0).1.econ.gold =
      get_gold_cap nearCapAccount := by
  have ho : game_outcome "dice" 0 = some (true, 2) := by
    rw [game_outcome_dice, decide_eq_true (by norm_num : (0 : ℚ) < 1/2)]
    rfl
  have h := gamble_capped_win_payout nearCapState 1000 10 "dice" 0 2
    (by decide) (by decide) (by decide) (by decide) ho (by decide)
  exact ⟨h.1, h.2.1⟩


/-- `sample` draws exactly `min k n` elements. -/
theorem sample_length (k : Nat) : ∀ (l seed : List Nat),
    (sample l k seed).length = min k l.length := by
  induction k with
  | zero =>
    intro l seed
    simp [sample]
  | succ k ih =>
    intro l seed
    by_cases hl : l = []
    · subst hl
      simp [sample]
    · simp only [sample]
      rw [dif_neg hl]
      simp only [List.length_cons]
      rw [ih]
      have hx : l.get ⟨seed.headD 0 % l.length,
          Nat.mod_lt _ (List.length_pos.mpr hl)⟩ ∈ l := l.get_mem _ _
      rw [List.length_erase_of_mem hx]
      have hpos : 0 < l.length := List.length_pos.mpr hl
      omega

/-- Every element drawn by `sample` comes from the input list. -/
theorem sample_subset (k : Nat) : ∀ (l seed : List Nat),
    ∀ y ∈ sample l k seed, y ∈ l := by
  induction k with
  | zero =>
    intro l seed y hy
    simp [sample] at hy
  | succ k ih =>
    intro l seed y hy
    by_cases hl : l = []
    · subst hl
      simp [sample] at hy
    · simp only [sample] at hy
      rw [dif_neg hl] at hy
      rcases List.mem_cons.mp hy with h | h
      · subst h
        exact l.get_mem _ _
      · exact List.erase_subset _ _ (ih _ _ y h)

/-- On a duplicate-free input, `sample` draws pairwise-distinct
elements (the chosen element is removed before the next draw). -/
theorem sample_nodup (k : Nat) : ∀ (l seed : List Nat), l.Nodup →
    (sample l k seed).Nodup := by
  induction k with
  | zero =>
    intro l seed _
    simp [sample]
  | succ k ih =>
    intro l seed hnd
    by_cases hl : l = []
    · subst hl
      simp [sample]
    · simp only [sample]
      rw [dif_neg hl]
      refine List.nodup_cons.mpr ⟨?_, ih _ _ (hnd.erase _)⟩
      intro hmem
      have hin := sample_subset k _ _ _ hmem
      exact ((List.Nodup.mem_erase_iff hnd).mp hin).1 rfl

/-- The payout loop credits each listed winner exactly once and leaves
every other account untouched, provided the winner list is
duplicate-free. -/
theorem payWinners_pointwise (prize : Int) : ∀ (ws : List Nat)
    (accounts : Nat → Account) (uid : Nat), ws.Nodup →
    payWinners prize ws accounts uid =
      if uid ∈ ws then (update_user_balance (accounts uid) prize).state
      else accounts uid := by
  intro ws
  induction ws with
  | nil =>
    intro accounts uid _
    simp [payWinners]
  | cons w ws ih =>
    intro accounts uid hnd
    have hw : w ∉ ws := (List.nodup_cons.mp hnd).1
    have hnd2 : ws.Nodup := (List.nodup_cons.mp hnd).2
    simp only [payWinners]
    rw [ih _ _ hnd2]
    by_cases hmem : uid ∈ ws
    · have hne : uid ≠ w := fun h => hw (h ▸ hmem)
      simp [hmem, hne, List.mem_cons]
    · by_cases heq : uid = w
      · subst heq
        simp [hmem, List.mem_cons]
      · simp [hmem, heq, List.mem_cons]

/-- The payout loop preserves the balance invariant pointwise, with or
without duplicates. -/
theorem payWinners_preserves_inv (prize : Int) : ∀ (ws : List Nat)
    (accounts : Nat → Account) (uid : Nat), BalanceInv (accounts uid) →
    BalanceInv (payWinners prize ws accounts uid) := by
  intro ws
  induction ws with
  | nil =>
    intro accounts uid h
    simpa [payWinners] using h
  | cons w ws ih =>
    intro accounts uid h
    simp only [payWinners]
    apply ih
    by_cases heq : uid = w
    · subst heq
      simp only [if_pos rfl]
      exact update_user_balance_inv _ _
    · simp only [if_neg heq]
      exact h

/-- C4: `end_giveaway` flips an active drawing to `ended` exactly once.
With zero entries it returns the empty winner set and performs no
balance-engine call (the account table is untouched); with `n ≥ 1`
entries it returns `min(winner_count, n)` pairwise-distinct entrants
drawn without replacement from the entry list (uniformity over the
draws is the property of `random.sample`, whose randomness is the
`seed` argument) and credits each selected winner `prize_amount`
through the balance engine, leaving every other account untouched; and
a second `end_giveaway` on the resulting `ended` drawing returns
Python's `(None, None)` and mutates nothing. -/
theorem end_giveaway_spec (s : DrawState) (seed seed2 : List Nat)
    (hactive : s.giveaway.status = "active") (hnd : s.entries.Nodup) :
    (end_giveaway s seed).1.giveaway.status = "ended" ∧
    (s.entries = [] →
      (end_giveaway s seed).2 = some [] ∧
      (end_giveaway s seed).1.accounts = s.accounts) ∧
    (s.entries ≠ [] →
      ∃ ws, (end_giveaway s seed).2 = some ws ∧
        ws.length = min s.giveaway.winnerCount s.entries.length ∧
        ws.Nodup ∧
        (∀ w ∈ ws, w ∈ s.entries) ∧
        (∀ uid, (end_giveaway s seed).1.accounts uid =
          if uid ∈ ws then
            (update_user_balance (s.accounts uid) s.giveaway.prizeAmount).state
          else s.accounts uid)) ∧
    end_giveaway (end_giveaway s seed).1 seed2 = ((end_giveaway s seed).1, none) := by
  have hcond : ¬ (s.giveaway.status ≠ "active") := by simp [hactive]
  have hstat : (end_giveaway s seed).1.giveaway.status = "ended" := by
    by_cases he : s.entries = []
    · simp [end_giveaway, if_neg hcond, he]
    · simp [end_giveaway, if_neg hcond, he]
  refine ⟨hstat, ?_, ?_, ?_⟩
  · intro he
    constructor
    · simp [end_giveaway, if_neg hcond, he]
    · simp [end_giveaway, if_neg hcond, he]
  · intro he
    refine ⟨sample s.entries (min s.giveaway.winnerCount s.entries.length) seed,
      ?_, by rw [sample_length]; omega, sample_nodup _ _ _ hnd,
      fun w hw => sample_subset _ _ _ w hw, ?_⟩
    · simp [end_giveaway, if_neg hcond, he]
    · intro uid
      have hacc : (end_giveaway s seed).1.accounts =
          payWinners s.giveaway.prizeAmount
            (sample s.entries (min s.giveaway.winnerCount s.entries.length)
              seed) s.accounts := by
        simp [end_giveaway, if_neg hcond, he]
      rw [hacc]
      exact payWinners_pointwise _ _ _ _ (sample_nodup _ _ _ hnd)
  · have hne : (end_giveaway s seed).1.giveaway.status ≠ "active" := by
      rw [hstat]
      decide
    generalize (end_giveaway s seed).1 = t at hne ⊢
    rw [end_giveaway, if_pos hne]

/-- A concrete five-entrant drawing used to witness C4. -/
def sampleDraw : DrawState :=
  { giveaway := { status := "active", winnerCount := 2, prizeAmount := 100 }
    entries := [1, 2, 3, 4, 5]
    accounts := fun _ => sampleAccount }

/-- Witness for C4 at `sampleDraw`: the status flips to `ended`, two
distinct entrants are drawn, and the second call is a no-op. -/
theorem end_giveaway_spec_witness :
    (end_giveaway sampleDraw [0, 0]).1.giveaway.status = "ended" ∧
    (∃ ws, (end_giveaway sampleDraw [0, 0]).2 = some ws ∧
      ws.length = min 2 5 ∧ ws.Nodup ∧ (∀ w ∈ ws, w ∈ [1, 2, 3, 4, 5]) ∧
      (∀ uid, (end_giveaway sampleDraw [0, 0]).1.accounts uid =
        if uid ∈ ws then (update_user_balance (sampleAccount) 100).state
        else sampleAccount)) ∧
    end_giveaway (end_giveaway sampleDraw [0, 0]).1 [3] =
      ((end_giveaway sampleDraw [0, 0]).1, none) := by
  have h := end_giveaway_spec sampleDraw [0, 0] [3] (by rfl) (by decide)
  refine ⟨h.1, ?_, h.2.2.2⟩
  obtain ⟨ws, h1, h2, h3, h4, h5⟩ := h.2.2.1 (by decide)
  exact ⟨ws, h1, h2, h3, h4, h5⟩


/-- C5: tournament creation (for a permitted host) rejects a duration
outside [5, 1440] minutes, a winner count outside [1, 10], and a
per-winner prize below 1 — each refusal leaving the host untouched and
creating nothing — and when the bounds hold, the host can fund the
total `prize_amount * winner_count`, and the insert succeeds, exactly
that total is deducted from the host's balance at creation time. -/
theorem tournament_creation_spec (host : Account) (d w p : Int)
    (createOk : Bool) :
    ((d < 5 ∨ 1440 < d) →
      tournament_cmd host true d w p createOk =
        (host, some .badDuration, false)) ∧
    (5 ≤ d → d ≤ 1440 → (w < 1 ∨ 10 < w) →
      tournament_cmd host true d w p createOk =
        (host, some .badWinnerCount, false)) ∧
    (5 ≤ d → d ≤ 1440 → 1 ≤ w → w ≤ 10 → p < 1 →
      tournament_cmd host true d w p createOk =
        (host, some .badPrize, false)) ∧
    (5 ≤ d → d ≤ 1440 → 1 ≤ w → w ≤ 10 → 1 ≤ p → host.gold < p * w →
      tournament_cmd host true d w p createOk =
        (host, some .insufficientGold, false)) ∧
    (5 ≤ d → d ≤ 1440 → 1 ≤ w → w ≤ 10 → 1 ≤ p → p * w ≤ host.gold →
      host.gold ≤ get_gold_cap host → createOk = true →
      (tournament_cmd host true d w p createOk).1.gold = host.gold - p * w ∧
      (tournament_cmd host true d w p createOk).2.1 = none ∧
      (tournament_cmd host true d w p createOk).2.2 = true) := by
  refine ⟨?_, ?_, ?_, ?_, ?_⟩
  · intro hd
    have hperm : ¬ (true = false) := by simp
    simp only [tournament_cmd]
    rw [if_neg hperm, if_pos hd]
  · intro hd1 hd2 hw
    have hperm : ¬ (true = false) := by simp
    have hd : ¬ (d < 5 ∨ 1440 < d) := by omega
    simp only [tournament_cmd]
    rw [if_neg hperm, if_neg hd, if_pos hw]
  · intro hd1 hd2 hw1 hw2 hp
    have hperm : ¬ (true = false) := by simp
    have hd : ¬ (d < 5 ∨ 1440 < d) := by omega
    have hw : ¬ (w < 1 ∨ 10 < w) := by omega
    simp only [tournament_cmd]
    rw [if_neg hperm, if_neg hd, if_neg hw, if_pos hp]
  · intro hd1 hd2 hw1 hw2 hp hg
    have hperm : ¬ (true = false) := by simp
    have hd : ¬ (d < 5 ∨ 1440 < d) := by omega
    have hw : ¬ (w < 1 ∨ 10 < w) := by omega
    have hp2 : ¬ (p < 1) := by omega
    simp only [tournament_cmd]
    rw [if_neg hperm, if_neg hd, if_neg hw, if_neg hp2, if_pos hg]
  · intro hd1 hd2 hw1 hw2 hp hg hcap hok
    have hperm : ¬ (true = false) := by simp
    have hd : ¬ (d < 5 ∨ 1440 < d) := by omega
    have hw : ¬ (w < 1 ∨ 10 < w) := by omega
    have hp2 : ¬ (p < 1) := by omega
    have hg2 : ¬ (host.gold < p * w) := by
      intro hlt
      exact absurd hg (by omega)
    have hok2 : ¬ (createOk = false) := by simp [hok]
    have heq : tournament_cmd host true d w p createOk =
        ((update_user_balance host (-(p * w))).state, none, true) := by
      simp only [tournament_cmd]
      rw [if_neg hperm, if_neg hd, if_neg hw, if_neg hp2, if_neg hg2,
        if_neg hok2]
    rw [heq]
    refine ⟨?_, rfl, rfl⟩
    show min (max 0 (host.gold + -(p * w))) (get_gold_cap host) =
      host.gold - p * w
    have hpw : 0 < p * w := mul_pos (by omega) (by omega)
    generalize p * w = t at hpw hg2 hg ⊢
    omega

/-- Witness for C5: a permitted host with 100 gold funds a 2-winner,
5-gold tournament (10 deducted); a 3-minute duration is rejected with
no deduction. -/
theorem tournament_creation_spec_witness :
    (tournament_cmd sampleAccount true 10 2 5 true).1.gold =
      sampleAccount.gold - 5 * 2 ∧
    (tournament_cmd sampleAccount true 10 2 5 true).2.2 = true ∧
    tournament_cmd sampleAccount true 3 2 5 true =
      (sampleAccount, some .badDuration, false) := by
  have h := (tournament_creation_spec sampleAccount 10 2 5 true).2.2.2.2
    (by decide) (by decide) (by decide) (by decide) (by decide) (by decide)
    (by decide) rfl
  exact ⟨h.1, h.2.2,
    (tournament_creation_spec sampleAccount 3 2 5 true).1 (by decide)⟩

/-- C1 (amended): every balance-mutating operation that routes through
the balance engine — `adjust` itself (unconditionally), the daily
claim, labour, wagering, transfers (both parties), shop purchases,
drawing payouts, and the tournament-creation deduction — preserves the
invariant `0 ≤ balance ≤ ceiling(privileged-tier)`.  The admin monthly
bonus is the exception: it bypasses the engine and can break the
ceiling (see the counterexample). -/
theorem economy_ops_preserve_balance_invariant :
    (∀ (e : Account) (c : Int), BalanceInv (update_user_balance e c).state) ∧
    (∀ (e : Account) (now : Nat) (a : Int), BalanceInv e →
      BalanceInv (claim_daily e now a).1) ∧
    (∀ (e : Account) (now : Nat) (a : Int), BalanceInv e →
      BalanceInv (work e now a).1) ∧
    (∀ (s : GambleState) (now : Nat) (amount : Int) (g : String) (roll : ℚ),
      BalanceInv s.econ → BalanceInv (gamble s now amount g roll).1.econ) ∧
    (∀ (sender receiver : Account) (sid rid : Nat) (amount : Int),
      BalanceInv sender → BalanceInv receiver →
      BalanceInv (transfer_gold sender receiver sid rid amount).1 ∧
      BalanceInv (transfer_gold sender receiver sid rid amount).2.1) ∧
    (∀ (e : Account) (item : Option ShopItem) (owned : Bool), BalanceInv e →
      BalanceInv (buy_item e item owned).1) ∧
    (∀ (s : DrawState) (seed : List Nat) (uid : Nat),
      BalanceInv (s.accounts uid) →
      BalanceInv ((end_giveaway s seed).1.accounts uid)) ∧
    (∀ (host : Account) (perm : Bool) (d w p : Int) (ok : Bool),
      BalanceInv host → BalanceInv (tournament_cmd host perm d w p ok).1) := by
  refine ⟨update_user_balance_inv, ?_, ?_, ?_, ?_, ?_, ?_, ?_⟩
  · intro e now a h
    unfold claim_daily
    split
    · exact h
    · exact update_user_balance_inv _ _
  · intro e now a h
    unfold work
    split
    · exact h
    · exact balanceInv_of_gold_isAdmin _ _ rfl rfl (update_user_balance_inv _ _)
  · intro s now amount g roll h
    by_cases c1 : (can_gamble_weekly s.records now).1 = false
    · have heq : gamble s now amount g roll =
          (s, .refusal .quotaExhausted) := by simp [gamble, c1]
      rw [heq]
      exact h
    · have hq : (can_gamble_weekly s.records now).1 = true := by
        cases hb : (can_gamble_weekly s.records now).1
        · exact absurd hb c1
        · rfl
      by_cases c2 : amount ≤ 0
      · have heq : gamble s now amount g roll =
            (s, .refusal .nonPositiveWager) := by simp [gamble, hq, c2]
        rw [heq]
        exact h
      · by_cases c3 : s.econ.gold < amount
        · have heq : gamble s now amount g roll =
              (s, .refusal .insufficientFunds) := by simp [gamble, hq, c2, c3]
          rw [heq]
          exact h
        · by_cases c4 : get_gold_cap s.econ ≤ s.econ.gold
          · have heq : gamble s now amount g roll =
                (s, .refusal .atGoldCap) := by simp [gamble, hq, c2, c3, c4]
            rw [heq]
            exact h
          · rcases hout : game_outcome g roll with _ | ⟨win, mult⟩
            · have heq : gamble s now amount g roll =
                  (s, .refusal .unknownGame) := by
                simp [gamble, hq, c2, c3, c4, hout]
              rw [heq]
              exact h
            · rw [gamble_resolved s now amount g roll win mult hq
                (by omega) (by omega) (by omega) hout]
              cases win
              · exact balanceInv_of_gold_isAdmin _ _ rfl rfl
                  (update_user_balance_inv _ _)
              · exact balanceInv_of_gold_isAdmin _ _ rfl rfl
                  (update_user_balance_inv _ _)
  · intro sender receiver sid rid amount hs hr
    unfold transfer_gold
    split_ifs <;>
      exact ⟨by first | exact hs | exact update_user_balance_inv _ _,
             by first | exact hr | exact update_user_balance_inv _ _⟩
  · intro e item owned h
    rcases item with _ | it
    · exact h
    · simp only [buy_item]
      split_ifs <;> first
        | exact h
        | exact update_user_balance_inv _ _
  · intro s seed uid h
    unfold end_giveaway
    split
    · exact h
    · split
      · exact h
      · exact payWinners_preserves_inv _ _ _ _ h
  · intro host perm d w p ok h
    simp only [tournament_cmd]
    split_ifs <;> first
      | exact h
      | exact update_user_balance_inv _ _

/-- Witness for the amended C1 at concrete states: a successful daily
claim and a transfer both leave the accounts inside `[0, ceiling]`. -/
theorem economy_ops_preserve_balance_invariant_witness :
    BalanceInv (claim_daily sampleAccount 1000 5).1 ∧
    BalanceInv (transfer_gold sampleAccount poorAccount 1 2 10).1 :=
  ⟨economy_ops_preserve_balance_invariant.2.1 sampleAccount 1000 5 (by decide),
   (economy_ops_preserve_balance_invariant.2.2.2.2.1 sampleAccount poorAccount
      1 2 10 (by decide) (by decide)).1⟩

end Econ
